import Mathlib

/-!
Verification development for the `FakeMessageComposer` plugin
(`src/MessageUtilities.js`): a shallow embedding of its channel-scoped
content reconciliation engine, configuration store, identity cache and
lifecycle controller, together with theorems settling the spec claims.

The plugin is single-threaded and event-driven; all external collaborators
(the user store, the message injection/removal collaborators, the clock,
the selected-channel store) are modelled as an explicit environment
record.  JavaScript exceptions are modelled with `Except`; `Map` objects
are modelled as association lists with the `Map` update/erase semantics.
-/

namespace FakeMessageComposer

/-! ## String helpers

JavaScript `String.prototype.trim` removes leading and trailing
whitespace.  We model the common ASCII whitespace characters explicitly
so that every definition evaluates by `decide`/`rfl`. -/

def isJsWhitespace (c : Char) : Bool :=
  c == ' ' || c == '\t' || c == '\n' || c == '\r' ||
  c == Char.ofNat 11 || c == Char.ofNat 12

/-- JavaScript `value.trim()`. -/
def jsTrim (s : String) : String :=
  String.mk (((s.data.dropWhile isJsWhitespace).reverse.dropWhile isJsWhitespace).reverse)

/-- JavaScript truthiness of a string: non-empty. -/
def strTruthy (s : String) : Bool := !(s == "")

/-! ## Configuration data model (`DEFAULT_CONFIG`, lines 16-23) -/

structure Embed where
  label : String
  url : String
deriving Repr, DecidableEq

structure Config where
  enabled : Bool
  discordId : String
  messageContent : String
  channelMode : String
  targetChannelId : String
  embeds : List Embed
deriving Repr, DecidableEq

def DEFAULT_CONFIG : Config :=
  { enabled := true
    discordId := ""
    messageContent := "This is a local-only fake message."
    channelMode := "any"
    targetChannelId := ""
    embeds := [] }

/-- `getDefaultConfig` (lines 84-93): returns a fresh copy of the defaults. -/
def getDefaultConfig : Config := DEFAULT_CONFIG

/-- `isSnowflake` (lines 549-552): the trimmed value must match `^\d{5,}$`. -/
def isSnowflake (value : String) : Bool :=
  let t := jsTrim value
  decide (5 ≤ t.data.length) && t.data.all Char.isDigit

/-- `shouldRenderInChannel` (lines 381-392): the decision gate. -/
def shouldRenderInChannel (config : Config) (channelId : String) : Bool :=
  if !config.enabled then false
  else if !isSnowflake config.discordId then false
  else if !strTruthy (jsTrim config.messageContent) then false
  else if config.channelMode == "specific" then
    if !isSnowflake config.targetChannelId then false
    else channelId == config.targetChannelId
  else true

/-! ## Association-list model of JavaScript `Map`

`Map.get`/`Map.set`/`Map.delete` with insertion-order preservation:
`set` on an existing key updates in place, otherwise appends. -/

def listGet {α : Type} (m : List (String × α)) (k : String) : Option α :=
  (m.find? (fun p => p.1 == k)).map (fun p => p.2)

def listSet {α : Type} (m : List (String × α)) (k : String) (v : α) : List (String × α) :=
  if m.any (fun p => p.1 == k) then
    m.map (fun p => if p.1 == k then (k, v) else p)
  else m ++ [(k, v)]

def listErase {α : Type} (m : List (String × α)) (k : String) : List (String × α) :=
  m.filter (fun p => !(p.1 == k))

/-! ## Users and message construction -/

/-- A Discord user object as consumed by `buildAuthor` and `fetchUser`.
Absent (`undefined`) fields are `none`; the `{id: trimmed}` placeholder
produced by `fetchUser` has every optional field `none`. -/
structure User where
  id : String
  username : Option String := none
  global_name : Option String := none
  globalName : Option String := none
  discriminator : Option String := none
  avatar : Option String := none
  bot : Option Bool := none
  public_flags : Option Nat := none
deriving Repr, DecidableEq

/-- The author projection built by `buildAuthor` (lines 434-449). -/
structure Author where
  id : String
  username : String
  discriminator : String
  avatar : Option String
  bot : Bool
  public_flags : Nat
  global_name : Option String
deriving Repr, DecidableEq

/-- `buildAuthor` (lines 434-449). -/
def buildAuthor (user : Option User) (userId : String) : Author :=
  let username :=
    (((user.bind (fun u => u.username)).orElse
        (fun _ => user.bind (fun u => u.global_name))).orElse
        (fun _ => user.bind (fun u => u.globalName))).getD
      ("Unknown User (" ++ userId ++ ")")
  { id := userId
    username := username
    discriminator := (user.bind (fun u => u.discriminator)).getD "0000"
    avatar := user.bind (fun u => u.avatar)
    bot := (user.bind (fun u => u.bot)).getD false
    public_flags := (user.bind (fun u => u.public_flags)).getD 0
    global_name := ((user.bind (fun u => u.global_name)).orElse
      (fun _ => user.bind (fun u => u.globalName))) }

/-- An embed object produced by `buildEmbeds` (lines 451-468). -/
structure BuiltEmbed where
  type : String
  title : String
  url : String
  description : String
  color : Nat
  footerText : String
deriving Repr, DecidableEq

/-- `buildEmbeds` (lines 451-468): first drop entries whose label and url
both trim to empty, then number the survivors, defaulting an empty label
to `Link (index+1)`, and finally drop survivors whose url trims to
empty. -/
def buildEmbeds (embeds : List Embed) : List BuiltEmbed :=
  ((embeds.filter
      (fun e => strTruthy (jsTrim e.label) || strTruthy (jsTrim e.url))).enum.map
    (fun p =>
      let label := if strTruthy (jsTrim p.2.label) then jsTrim p.2.label
                   else "Link " ++ toString (p.1 + 1)
      let url := jsTrim p.2.url
      if !strTruthy url then none
      else some { type := "link", title := label, url := url, description := url,
                  color := 0x5865f2, footerText := "LOCAL PREVIEW ONLY" })).filterMap id

def MESSAGE_ID_BASE : String := "fake-message-composer"

/-- `decorateContent` (lines 429-432). -/
def decorateContent (timestampBadgePatched : Bool) (content : String) : String :=
  if timestampBadgePatched then content else "[LOCAL FAKE] " ++ content

/-- The synthetic message object built by `buildFakeMessage` (lines 394-427);
constant fields (`type`, `tts`, flags, ...) are omitted. -/
structure FakeMessage where
  id : String
  channel_id : String
  guild_id : Option String
  author : Author
  content : String
  timestamp : String
  embeds : List BuiltEmbed
  nonce : String
deriving Repr, DecidableEq

/-! ## The external environment -/

/-- Outcome of the synchronous `userStore.getUser` call, which is not
wrapped in a `try` inside `fetchUser`. -/
inductive LookupResult where
  | found (u : User)
  | missing
  | throws
deriving Repr, DecidableEq

/-- The external collaborators consumed by the plugin, including whether
the injection/removal calls throw for a given channel/message id. -/
structure Env where
  getUser : String → LookupResult
  hasFetchUser : Bool
  fetchUserAsync : String → Except Unit (Option User)
  receiveThrows : String → String → Bool
  deleteThrows : String → String → Bool
  getChannelGuildId : String → Option String
  currentChannelId : Option String
  now : Nat
  nowISO : String

/-- Observable calls to the injection / removal / persistence
collaborators, in order of occurrence. -/
inductive Event where
  | injected (channelId : String) (messageId : String)
  | removed (channelId : String) (messageId : String)
  | persisted (config : Config)
deriving Repr, DecidableEq

/-- The mutable fields of the plugin instance that the reconciliation
engine and lifecycle controller touch. -/
structure PluginState where
  config : Config
  injectedMessages : List (String × String)
  userCache : List (String × User)
  persistTimer : Option Nat
  started : Bool
  channelSubscribed : Bool
  timestampBadgePatched : Bool
deriving Repr, DecidableEq

/-! ## Identity cache: `fetchUser` (lines 511-532) -/

/-- `fetchUser`: trims the id; empty means `null`; a cache hit returns the
cached value; otherwise the synchronous store lookup runs (and may
throw), then the asynchronous fetch (whose rejection is caught), and a
resolved user — but not the placeholder — is written to the cache. -/
def fetchUser (env : Env) (cache : List (String × User)) (userId : String) :
    Except Unit (Option User × List (String × User)) :=
  let trimmed := jsTrim userId
  if !strTruthy trimmed then .ok (none, cache)
  else
    match listGet cache trimmed with
    | some u => .ok (some u, cache)
    | none =>
      match env.getUser trimmed with
      | .throws => .error ()
      | .found u => .ok (some u, listSet cache trimmed u)
      | .missing =>
        let fetched : Option User :=
          if env.hasFetchUser then
            match env.fetchUserAsync trimmed with
            | .ok u => u
            | .error _ => none
          else none
        match fetched with
        | some u => .ok (some u, listSet cache trimmed u)
        | none => .ok (some { id := trimmed }, cache)

/-! ## Reconciliation engine (lines 360-509) -/

/-- `buildFakeMessage` (lines 394-427).  The only throwing step is the
awaited `fetchUser` (via the unwrapped `getUser`); it happens before any
cache write, so the error carries the unchanged state. -/
def buildFakeMessage (env : Env) (st : PluginState) (channelId : String) :
    Except PluginState (Option FakeMessage × PluginState) :=
  let authorId := jsTrim st.config.discordId
  match fetchUser env st.userCache authorId with
  | .error _ => .error st
  | .ok (author, cache) =>
    let st := { st with userCache := cache }
    if !strTruthy st.config.messageContent then .ok (none, st)
    else
      .ok (some
        { id := MESSAGE_ID_BASE ++ ":" ++ channelId
          channel_id := channelId
          guild_id := env.getChannelGuildId channelId
          author := buildAuthor author authorId
          content := decorateContent st.timestampBadgePatched st.config.messageContent
          timestamp := env.nowISO
          embeds := buildEmbeds st.config.embeds
          nonce := MESSAGE_ID_BASE ++ ":" ++ toString env.now }, st)

/-- `removeFakeMessage` (lines 484-489): look up the tracked id, call the
removal collaborator (`dispatchMessageDelete`, which may throw), then
delete the table entry. -/
def removeFakeMessage (env : Env) (st : PluginState) (channelId : String) :
    Except Unit (PluginState × List Event) :=
  match listGet st.injectedMessages channelId with
  | none => .ok (st, [])
  | some existingId =>
    if env.deleteThrows channelId existingId then .error ()
    else .ok ({ st with injectedMessages := listErase st.injectedMessages channelId },
              [Event.removed channelId existingId])

/-- The body of the `try` block of `refreshChannel` (lines 370-375):
build the message, inject it (`injectFakeMessage`, which may throw), and
record the new id.  An error carries the state reached so far (the user
cache may already have been updated). -/
def injectPhase (env : Env) (st : PluginState) (channelId : String) :
    Except PluginState (PluginState × List Event) :=
  match buildFakeMessage env st channelId with
  | .error stE => .error stE
  | .ok (none, st) => .ok (st, [])
  | .ok (some msg, st) =>
    if env.receiveThrows msg.channel_id msg.id then .error st
    else .ok ({ st with injectedMessages := listSet st.injectedMessages channelId msg.id },
              [Event.injected msg.channel_id msg.id])

/-- `refreshChannel` (lines 360-379): retract-then-decide.  A falsy
(empty) channel id returns immediately; the retraction runs outside the
`try` block, so a throwing removal collaborator escapes; any exception
from the build/inject phase is caught (`warn`) and only the state reached
so far is kept. -/
def refreshChannel (env : Env) (st : PluginState) (channelIdRaw : String) :
    Except Unit (PluginState × List Event) :=
  if !strTruthy channelIdRaw then .ok (st, [])
  else
    match removeFakeMessage env st channelIdRaw with
    | .error _ => .error ()
    | .ok (st1, ev1) =>
      if !shouldRenderInChannel st1.config channelIdRaw then .ok (st1, ev1)
      else
        match injectPhase env st1 channelIdRaw with
        | .error stE => .ok (stE, ev1)
        | .ok (st2, ev2) => .ok (st2, ev1 ++ ev2)

/-- The loop body of `clearInjectedMessages` (lines 504-509): dispatch a
delete for every tracked entry, in table order; a throwing removal
collaborator aborts the loop (and the subsequent `clear` never runs). -/
def dispatchDeletes (env : Env) : List (String × String) → Except Unit (List Event)
  | [] => .ok []
  | (c, m) :: rest =>
    if env.deleteThrows c m then .error ()
    else
      match dispatchDeletes env rest with
      | .error _ => .error ()
      | .ok evs => .ok (Event.removed c m :: evs)

/-- `clearInjectedMessages` (lines 504-509). -/
def clearInjectedMessages (env : Env) (st : PluginState) :
    Except Unit (PluginState × List Event) :=
  match dispatchDeletes env st.injectedMessages with
  | .error _ => .error ()
  | .ok evs => .ok ({ st with injectedMessages := [] }, evs)

/-- `refreshForCurrentChannel` (lines 352-358). -/
def refreshForCurrentChannel (env : Env) (st : PluginState) (force : Bool) :
    Except Unit (PluginState × List Event) :=
  if !st.started && !force then .ok (st, [])
  else
    match env.currentChannelId with
    | none => .ok (st, [])
    | some current =>
      if strTruthy current then refreshChannel env st current else .ok (st, [])

/-- `reapplyFakeMessages` (lines 543-547): when started, clear every
injected message (all channels), then refresh the current channel. -/
def reapplyFakeMessages (env : Env) (st : PluginState) :
    Except Unit (PluginState × List Event) :=
  if !st.started then .ok (st, [])
  else
    match clearInjectedMessages env st with
    | .error _ => .error ()
    | .ok (st1, ev1) =>
      match refreshForCurrentChannel env st1 true with
      | .error _ => .error ()
      | .ok (st2, ev2) => .ok (st2, ev1 ++ ev2)

/-! ## Lifecycle controller: `stop` (lines 65-72) -/

/-- `unsubscribeFromChannelChanges` (lines 341-350): swallows unsubscribe
errors, then nulls the handle. -/
def unsubscribeFromChannelChanges (st : PluginState) : PluginState :=
  { st with channelSubscribed := false }

/-- `unpatchAll` (lines 275-285): swallows undo errors. -/
def unpatchAll (st : PluginState) : PluginState :=
  { st with timestampBadgePatched := false }

/-- `clearPersistTimer` (lines 157-162). -/
def clearPersistTimer (st : PluginState) : PluginState :=
  { st with persistTimer := none }

/-- `stop` (lines 65-72).  `clearInjectedMessages` is not wrapped in a
`try`; a throwing removal collaborator escapes `stop`. -/
def stop (env : Env) (st : PluginState) : Except Unit (PluginState × List Event) :=
  let st := { st with started := false }
  let st := unsubscribeFromChannelChanges st
  let st := unpatchAll st
  match clearInjectedMessages env st with
  | .error _ => .error ()
  | .ok (st, evs) => .ok (clearPersistTimer st, evs)

/-! ## Config store: merge, update and debounced persistence
(lines 108-162) -/

/-- `normalizeEmbeds` (lines 116-122), specialized to a well-typed entry
list: each entry's `label`/`url` is already a string, so the coercion is
the identity on each entry. -/
def normalizeEmbeds (candidate : List Embed) : List Embed :=
  candidate.map (fun e => { label := e.label, url := e.url })

/-- `mergeWithDefaults` (lines 108-114), specialized to a well-typed full
configuration: every field of the candidate overrides the default, and
`embeds` is independently normalized.  (The untyped JSON-level version
used by `loadConfig` is `mergeWithDefaultsJ` below.) -/
def mergeWithDefaults (c : Config) : Config :=
  { c with embeds := normalizeEmbeds c.embeds }

/-- A partial configuration patch, as passed to `updateConfig`
(lines 135-138): present fields override the current config. -/
structure ConfigPatch where
  enabled : Option Bool := none
  discordId : Option String := none
  messageContent : Option String := none
  channelMode : Option String := none
  targetChannelId : Option String := none
  embeds : Option (List Embed) := none
deriving Repr, DecidableEq

/-- The JavaScript spread `{...config, ...patch}` in `updateConfig`. -/
def applyPatch (c : Config) (p : ConfigPatch) : Config :=
  { enabled := p.enabled.getD c.enabled
    discordId := p.discordId.getD c.discordId
    messageContent := p.messageContent.getD c.messageContent
    channelMode := p.channelMode.getD c.channelMode
    targetChannelId := p.targetChannelId.getD c.targetChannelId
    embeds := p.embeds.getD c.embeds }

def PERSIST_DEBOUNCE_MS : Nat := 250

/-- The persistence-relevant slice of the plugin state: the current
config and the single pending debounce timer (its absolute deadline). -/
structure PersistState where
  config : Config
  persistTimer : Option Nat
deriving Repr, DecidableEq

/-- `enqueuePersist` (lines 146-155): clear any pending timer, then arm a
fresh one 250ms from now.  The timer callback reads `this.config` at fire
time. -/
def enqueuePersist (now : Nat) (ps : PersistState) : PersistState :=
  { ps with persistTimer := some (now + PERSIST_DEBOUNCE_MS) }

/-- `updateConfig` at time `now` (lines 135-138 followed by
`applyConfig`, lines 124-133, with default options): shallow-merge the
patch, merge with defaults, store, and schedule persistence.
(`reapplyFakeMessages`, also triggered by `applyConfig`, does not touch
the persistence slice.) -/
def updateConfigP (now : Nat) (ps : PersistState) (p : ConfigPatch) : PersistState :=
  enqueuePersist now { ps with config := mergeWithDefaults (applyPatch ps.config p) }

/-- The event loop at time `t`: a pending timer whose deadline has
passed fires (writing the then-current config via the persistence
collaborator). -/
def fireIfDue (t : Nat) (ps : PersistState) : PersistState × List Event :=
  match ps.persistTimer with
  | some d =>
    if d ≤ t then ({ ps with persistTimer := none }, [Event.persisted ps.config])
    else (ps, [])
  | none => (ps, [])

/-- Event-loop semantics of a sequence of timed `updateConfig` calls: at
each call's time, a due timer fires first, then the update runs. -/
def runUpdates : PersistState → List (Nat × ConfigPatch) → PersistState × List Event
  | ps, [] => (ps, [])
  | ps, (t, p) :: rest =>
    let fired := fireIfDue t ps
    let next := runUpdates (updateConfigP t fired.1 p) rest
    (next.1, fired.2 ++ next.2)

/-- Let the event loop go quiet after the last call: a pending timer
fires exactly once, writing the current config. -/
def flushPersist (ps : PersistState) : List Event :=
  match ps.persistTimer with
  | some _ => [Event.persisted ps.config]
  | none => []

/-- All the calls of a burst fall inside each other's debounce window:
times are nondecreasing and each call arrives strictly before the
previous call's deadline. -/
def withinDebounce : List (Nat × ConfigPatch) → Bool
  | [] => true
  | [_] => true
  | (t1, _) :: (t2, p) :: rest =>
    decide (t1 ≤ t2) && decide (t2 < t1 + PERSIST_DEBOUNCE_MS) &&
      withinDebounce ((t2, p) :: rest)

/-! ## Untyped JSON-level configuration loading (lines 95-122)

`loadConfig` feeds arbitrary parsed JSON into `mergeWithDefaults`, whose
object spread `{...defaults, ...configLike}` keeps every field of the
stored object.  We model JavaScript values and the spread semantics. -/

inductive JVal where
  | jnull
  | jbool (b : Bool)
  | jnum (n : Int)
  | jstr (s : String)
  | jarr (elems : List JVal)
  | jobj (fields : List (String × JVal))

/-- Own enumerable properties contributed by `{...v}`: objects spread
their fields, strings and arrays spread index-keyed entries, primitives
spread nothing. -/
def spreadFields : JVal → List (String × JVal)
  | .jobj fs => fs
  | .jstr s => s.data.enum.map (fun p => (toString p.1, JVal.jstr (String.mk [p.2])))
  | .jarr xs => xs.enum.map (fun p => (toString p.1, p.2))
  | _ => []

/-- Property access `v?.k`: only objects have named fields. -/
def getField (v : JVal) (k : String) : Option JVal :=
  match v with
  | .jobj fs => listGet fs k
  | _ => none

/-- Insert-or-overwrite one spread field, keeping insertion order. -/
def setField (fs : List (String × JVal)) (k : String) (v : JVal) : List (String × JVal) :=
  listSet fs k v

/-- Later spread fields override earlier ones. -/
def mergeFields (base over : List (String × JVal)) : List (String × JVal) :=
  over.foldl (fun acc p => setField acc p.1 p.2) base

def lookupField (fs : List (String × JVal)) (k : String) : Option JVal :=
  listGet fs k

/-- `normalizeEmbeds` (lines 116-122) on an untyped candidate: non-arrays
become `[]`; each entry's `label`/`url` is kept only when it is a string,
else coerced to `""`. -/
def normalizeEmbedsJ (candidate : JVal) : List Embed :=
  match candidate with
  | .jarr xs => xs.map (fun entry =>
      { label := match getField entry "label" with | some (.jstr s) => s | _ => ""
        url := match getField entry "url" with | some (.jstr s) => s | _ => "" })
  | _ => []

def embedsToJVal (es : List Embed) : JVal :=
  .jarr (es.map (fun e => .jobj [("label", .jstr e.label), ("url", .jstr e.url)]))

/-- The defaults object (`getDefaultConfig`) as a JSON object. -/
def defaultFields : List (String × JVal) :=
  [("enabled", .jbool true),
   ("discordId", .jstr ""),
   ("messageContent", .jstr "This is a local-only fake message."),
   ("channelMode", .jstr "any"),
   ("targetChannelId", .jstr ""),
   ("embeds", .jarr [])]

/-- `mergeWithDefaults` (lines 108-114) on an untyped candidate:
`{...defaults, ...(configLike ?? {}), embeds: normalizeEmbeds(configLike?.embeds ?? [])}`. -/
def mergeWithDefaultsJ (configLike : JVal) : List (String × JVal) :=
  let embedsIn :=
    match getField configLike "embeds" with
    | none => JVal.jarr []
    | some .jnull => JVal.jarr []
    | some v => v
  setField (mergeFields defaultFields (spreadFields configLike)) "embeds"
    (embedsToJVal (normalizeEmbedsJ embedsIn))

/-- What `storage.get` handed back to `loadConfig` (lines 95-106):
absent/falsy, a throwing getter, a string together with its `JSON.parse`
outcome (`none` = parse failure), or a non-string truthy value. -/
inductive StoredValue where
  | absent
  | getThrows
  | str (raw : String) (parsed : Option JVal)
  | val (v : JVal)

/-- `loadConfig` (lines 95-106): falsy, throwing or unparsable stored
values fall back to the defaults; otherwise the parsed value is merged
over the defaults.  Never throws. -/
def loadConfig : StoredValue → List (String × JVal)
  | .absent => defaultFields
  | .getThrows => defaultFields
  | .str _ none => defaultFields
  | .str _ (some j) => mergeWithDefaultsJ j
  | .val v => mergeWithDefaultsJ v

/-! ## Spec-side definitions (for comparison against the code) -/

/-- The claim's channel/target validity: the string itself matches
`^\d{5,}$` (no trimming) — also the spec's notion of a channel
identifier ("snowflake — all-digit, length ≥ 5"). -/
def matchesSnowflakePattern (s : String) : Bool :=
  decide (5 ≤ s.data.length) && s.data.all Char.isDigit

/-- The decision gate exactly as the claim states it: enabled, trimmed
`discordId` a snowflake, trimmed content non-empty and, in specific
mode, `targetChannelId` itself matching `^\d{5,}$` and equal to the
channel. -/
def claimDecisionGate (cfg : Config) (c : String) : Bool :=
  cfg.enabled && isSnowflake cfg.discordId && strTruthy (jsTrim cfg.messageContent) &&
    (if cfg.channelMode == "specific"
     then matchesSnowflakePattern cfg.targetChannelId && c == cfg.targetChannelId
     else true)

/-- Modelled from the spec's words: a "resolvable http(s) URL" begins
with `http://` or `https://` (case-insensitively), as in the settings UI
hint regex — the reconciliation core itself performs no such check. -/
def isHttpUrl (s : String) : Bool :=
  let t := (jsTrim s).data.map Char.toLower
  (t.take 7 == "http://".data) || (t.take 8 == "https://".data)

/-! ## Concrete fixtures used by witnesses and counterexamples -/

/-- A well-behaved environment: the user store misses (the placeholder
path), no collaborator throws, no channel is selected. -/
def envBenign : Env :=
  { getUser := fun _ => .missing
    hasFetchUser := false
    fetchUserAsync := fun _ => .ok none
    receiveThrows := fun _ _ => false
    deleteThrows := fun _ _ => false
    getChannelGuildId := fun _ => none
    currentChannelId := none
    now := 1000
    nowISO := "2026-01-01T00:00:00.000Z" }

/-- A started plugin state over a given configuration. -/
def stOf (c : Config) : PluginState :=
  { config := c
    injectedMessages := []
    userCache := []
    persistTimer := none
    started := true
    channelSubscribed := true
    timestampBadgePatched := false }

/-- Scenario A's configuration: enabled, valid source id, content
`hello`, any-channel scope. -/
def cfgAny : Config :=
  { enabled := true, discordId := "123456789012345", messageContent := "hello",
    channelMode := "any", targetChannelId := "", embeds := [] }

/-- Scenario B's configuration as written in the spec: specific scope
with `targetChannelId = "111"` (three digits). -/
def cfg111 : Config := { cfgAny with channelMode := "specific", targetChannelId := "111" }

/-- Scenario B's configuration with a five-digit (valid) target. -/
def cfgSpec5 : Config := { cfg111 with targetChannelId := "11111" }

/-- A specific-scope configuration whose target has a leading space. -/
def cfgSpecTrim : Config := { cfg111 with targetChannelId := " 12345" }

/-- `cfgAny` with rendering disabled. -/
def cfgDisabled : Config := { cfgAny with enabled := false }

/-! ## Association-list lemmas -/

theorem listGet_eq_none_iff {α : Type} {m : List (String × α)} {k : String} :
    listGet m k = none ↔ ∀ p ∈ m, (p.1 == k) = false := by
  simp [listGet, List.find?_eq_none]

theorem filter_key_listErase {α : Type} (m : List (String × α)) (k : String) :
    (listErase m k).filter (fun p => p.1 == k) = [] := by
  induction m with
  | nil => rfl
  | cons hd tl ih =>
    by_cases h : (hd.1 == k) = true
    · simp [listErase, h]
    · simp only [Bool.not_eq_true] at h
      simp [listErase, List.filter_cons, h]

theorem listGet_listErase_self {α : Type} (m : List (String × α)) (k : String) :
    listGet (listErase m k) k = none := by
  rw [listGet_eq_none_iff]
  intro p hp
  simp only [listErase, List.mem_filter] at hp
  simpa using hp.2

theorem listGet_none_filter {α : Type} {m : List (String × α)} {k : String}
    (h : listGet m k = none) : m.filter (fun p => p.1 == k) = [] := by
  rw [listGet_eq_none_iff] at h
  simpa [List.filter_eq_nil_iff] using h

theorem any_key_eq_false {α : Type} {m : List (String × α)} {k : String}
    (h : listGet m k = none) : m.any (fun p => p.1 == k) = false := by
  rw [listGet_eq_none_iff] at h
  simpa [List.any_eq_false] using h

theorem listSet_of_get_none {α : Type} {m : List (String × α)} {k : String} (v : α)
    (h : listGet m k = none) : listSet m k v = m ++ [(k, v)] := by
  simp [listSet, any_key_eq_false h]

theorem filter_key_listSet_of_none {α : Type} {m : List (String × α)} {k : String} (v : α)
    (h : listGet m k = none) :
    (listSet m k v).filter (fun p => p.1 == k) = [(k, v)] := by
  rw [listSet_of_get_none v h]
  simp [List.filter_append, listGet_none_filter h]

theorem listGet_listSet_self {α : Type} (m : List (String × α)) (k : String) (v : α) :
    listGet (listSet m k v) k = some v := by
  induction m with
  | nil => simp [listSet, listGet]
  | cons hd tl ih =>
    by_cases h : (hd.1 == k) = true
    · have he : hd.1 = k := by simpa using h
      simp [listSet, listGet, h, he]
    · simp only [Bool.not_eq_true] at h
      have hne : ¬ hd.1 = k := by simpa using h
      by_cases ht : (tl.any (fun p => p.1 == k)) = true
      · have hstep : listSet (hd :: tl) k v = hd :: listSet tl k v := by
          simp [listSet, h, ht, hne]
        rw [hstep]
        simp [listGet, List.find?, h] at ih ⊢
        exact ih
      · simp only [Bool.not_eq_true] at ht
        have hstep : listSet (hd :: tl) k v = hd :: (tl ++ [(k, v)]) := by
          simp [listSet, h, ht, hne]
        rw [hstep]
        have htl : listSet tl k v = tl ++ [(k, v)] := by simp [listSet, ht]
        rw [htl] at ih
        simp [listGet, List.find?, h] at ih ⊢
        exact ih

/-! ## Engine characterization lemmas -/

/-- The build/inject phase either fails (leaving the table untouched),
builds nothing, or records exactly one freshly injected message for the
requested channel; it never touches the config or other channels. -/
theorem injectPhase_cases (env : Env) (st : PluginState) (c : String) :
    (∃ stE, injectPhase env st c = .error stE ∧
       stE.injectedMessages = st.injectedMessages ∧ stE.config = st.config) ∨
    (∃ st2, injectPhase env st c = .ok (st2, []) ∧
       st2.injectedMessages = st.injectedMessages ∧ st2.config = st.config) ∨
    (∃ st2 mId, injectPhase env st c = .ok (st2, [Event.injected c mId]) ∧
       st2.injectedMessages = listSet st.injectedMessages c mId ∧ st2.config = st.config) := by
  unfold injectPhase buildFakeMessage
  cases hf : fetchUser env st.userCache (jsTrim st.config.discordId) with
  | error e =>
    refine Or.inl ⟨st, ?_, rfl, rfl⟩
    simp [hf]
  | ok r =>
    obtain ⟨author, cache⟩ := r
    by_cases hb : strTruthy st.config.messageContent = true
    · by_cases hr : env.receiveThrows c (MESSAGE_ID_BASE ++ ":" ++ c) = true
      · refine Or.inl ⟨{ st with userCache := cache }, ?_, rfl, rfl⟩
        simp [hf, hb, hr]
      · simp only [Bool.not_eq_true] at hr
        refine Or.inr (Or.inr ⟨{ st with userCache := cache, injectedMessages := listSet st.injectedMessages c (MESSAGE_ID_BASE ++ ":" ++ c) }, MESSAGE_ID_BASE ++ ":" ++ c, ?_, rfl, rfl⟩)
        simp [hf, hb, hr]
    · simp only [Bool.not_eq_true] at hb
      refine Or.inr (Or.inl ⟨{ st with userCache := cache }, ?_, rfl, rfl⟩)
      simp [hf, hb]

/-- `removeFakeMessage` on a hit (with a benign removal collaborator)
erases the entry and emits the removal; on a miss it is the identity. -/
theorem removeFakeMessage_miss {env : Env} {st : PluginState} {c : String}
    (h : listGet st.injectedMessages c = none) :
    removeFakeMessage env st c = .ok (st, []) := by
  simp [removeFakeMessage, h]

theorem removeFakeMessage_hit {env : Env} {st : PluginState} {c mId : String}
    (h : listGet st.injectedMessages c = some mId)
    (hdel : env.deleteThrows c mId = false) :
    removeFakeMessage env st c =
      .ok ({ st with injectedMessages := listErase st.injectedMessages c },
           [Event.removed c mId]) := by
  simp [removeFakeMessage, h, hdel]

/-- A successful `dispatchDeletes` emits exactly one removal per table
entry, in order. -/
theorem dispatchDeletes_ok_events {env : Env} :
    ∀ {l : List (String × String)} {evs : List Event},
      dispatchDeletes env l = .ok evs → evs = l.map (fun p => Event.removed p.1 p.2)
  | [], evs, h => by simpa [dispatchDeletes] using h.symm
  | (c, m) :: rest, evs, h => by
    by_cases hd : env.deleteThrows c m = true
    · simp [dispatchDeletes, hd] at h
    · simp only [Bool.not_eq_true] at hd
      cases hrest : dispatchDeletes env rest with
      | error e => simp [dispatchDeletes, hd, hrest] at h
      | ok evs' =>
        have := dispatchDeletes_ok_events hrest
        simp [dispatchDeletes, hd, hrest] at h
        simp [← h, this]

/-- With a benign removal collaborator, `dispatchDeletes` succeeds. -/
theorem dispatchDeletes_benign {env : Env} :
    ∀ {l : List (String × String)},
      (∀ p ∈ l, env.deleteThrows p.1 p.2 = false) →
      dispatchDeletes env l = .ok (l.map (fun p => Event.removed p.1 p.2))
  | [], _ => by simp [dispatchDeletes]
  | (c, m) :: rest, h => by
    have hd := h (c, m) (by simp)
    have hrest := @dispatchDeletes_benign env rest
      (fun p hp => h p (List.mem_cons_of_mem (c, m) hp))
    simp [dispatchDeletes, hd, hrest]

/-- Complete case analysis of a successful `removeFakeMessage`. -/
theorem removeFakeMessage_ok_cases {env : Env} {st : PluginState} {c : String}
    {st1 : PluginState} {ev1 : List Event}
    (h : removeFakeMessage env st c = .ok (st1, ev1)) :
    (listGet st.injectedMessages c = none ∧ st1 = st ∧ ev1 = []) ∨
    (∃ mId, listGet st.injectedMessages c = some mId ∧ env.deleteThrows c mId = false ∧
       st1 = { st with injectedMessages := listErase st.injectedMessages c } ∧
       ev1 = [Event.removed c mId]) := by
  cases hm : listGet st.injectedMessages c with
  | none =>
    rw [removeFakeMessage_miss hm] at h
    injection h with h1
    injection h1 with h2 h3
    exact Or.inl ⟨rfl, h2.symm, h3.symm⟩
  | some mId =>
    by_cases hd : env.deleteThrows c mId = true
    · simp [removeFakeMessage, hm, hd] at h
    · simp only [Bool.not_eq_true] at hd
      rw [removeFakeMessage_hit hm hd] at h
      injection h with h1
      injection h1 with h2 h3
      exact Or.inr ⟨mId, rfl, hd, h2.symm, h3.symm⟩

/-- Complete case analysis of a successful `refreshChannel`. -/
theorem refreshChannel_ok_cases {env : Env} {st : PluginState} {c : String}
    {st' : PluginState} {evs : List Event}
    (h : refreshChannel env st c = .ok (st', evs)) :
    (strTruthy c = false ∧ st' = st ∧ evs = []) ∨
    (strTruthy c = true ∧ ∃ st1 ev1,
       removeFakeMessage env st c = .ok (st1, ev1) ∧
       ((shouldRenderInChannel st1.config c = false ∧ st' = st1 ∧ evs = ev1) ∨
        (shouldRenderInChannel st1.config c = true ∧
          ((∃ stE, injectPhase env st1 c = .error stE ∧ st' = stE ∧ evs = ev1) ∨
           (∃ st2 ev2, injectPhase env st1 c = .ok (st2, ev2) ∧ st' = st2 ∧
              evs = ev1 ++ ev2))))) := by
  unfold refreshChannel at h
  split at h
  · next hcond =>
    injection h with h1
    injection h1 with h2 h3
    exact Or.inl ⟨by simpa using hcond, h2.symm, h3.symm⟩
  · next hcond =>
    have hc : strTruthy c = true := by simpa using hcond
    refine Or.inr ⟨hc, ?_⟩
    split at h
    · next e heq => exact absurd h (by simp)
    · next st1 ev1 heq =>
      refine ⟨st1, ev1, heq, ?_⟩
      split at h
      · next hgate =>
        injection h with h1
        injection h1 with h2 h3
        exact Or.inl ⟨by simpa using hgate, h2.symm, h3.symm⟩
      · next hgate =>
        have hg : shouldRenderInChannel st1.config c = true := by simpa using hgate
        refine Or.inr ⟨hg, ?_⟩
        split at h
        · next stE hip =>
          injection h with h1
          injection h1 with h2 h3
          exact Or.inl ⟨stE, hip, h2.symm, h3.symm⟩
        · next st2 ev2 hip =>
          injection h with h1
          injection h1 with h2 h3
          exact Or.inr ⟨st2, ev2, hip, h2.symm, h3.symm⟩

/-! ## Claim C1 -/

/-- C1: for every (non-empty) channel identifier `c`, a completed
`refreshChannel c` leaves at most one Active-Injection Table entry for
`c`, and whenever an item was tracked for `c` the invocation's very
first collaborator call is the removal of that item's saved id — before
any decision or injection takes place. -/
theorem refreshChannel_retract_then_single (env : Env) (st : PluginState) (c : String)
    (st' : PluginState) (evs : List Event)
    (hc : c ≠ "")
    (h : refreshChannel env st c = .ok (st', evs)) :
    (st'.injectedMessages.filter (fun p => p.1 == c)).length ≤ 1 ∧
    (∀ mId, listGet st.injectedMessages c = some mId →
       evs.head? = some (Event.removed c mId)) := by
  rcases refreshChannel_ok_cases h with ⟨hfalse, _, _⟩ | ⟨-, st1, ev1, hrm, hrest⟩
  · exact absurd (by simpa [strTruthy] using hfalse) hc
  · have hbase :
        listGet st1.injectedMessages c = none ∧
        (∀ mId, listGet st.injectedMessages c = some mId →
          ev1 = [Event.removed c mId]) := by
      rcases removeFakeMessage_ok_cases hrm with ⟨hmiss, h1, h2⟩ | ⟨mId, hhit, -, h1, h2⟩
      · rw [h1, h2]
        exact ⟨hmiss, fun m hm => by rw [hmiss] at hm; exact absurd hm (by simp)⟩
      · rw [h1, h2]
        refine ⟨listGet_listErase_self _ _, fun m hm => ?_⟩
        rw [hhit] at hm
        injection hm with hm1
        rw [hm1]
    obtain ⟨hnone, hfirst⟩ := hbase
    have htab : (st'.injectedMessages.filter (fun p => p.1 == c)).length ≤ 1 ∧
        (∃ ev2, evs = ev1 ++ ev2) := by
      rcases hrest with ⟨-, h1, h2⟩ | ⟨-, hinner⟩
      · refine ⟨?_, [], by rw [h2]; simp⟩
        rw [h1]
        simp [listGet_none_filter hnone]
      · rcases injectPhase_cases env st1 c with ⟨stE', hipE, htabE, -⟩ |
          ⟨st2', hipE, htabE, -⟩ | ⟨st2', mId', hipE, htabE, -⟩
        · rcases hinner with ⟨stE, hip, h1, h2⟩ | ⟨st2, ev2, hip, h1, h2⟩
          · have hh := hipE.symm.trans hip
            injection hh with hh1
            refine ⟨?_, [], by rw [h2]; simp⟩
            rw [h1, ← hh1, htabE]
            simp [listGet_none_filter hnone]
          · exact absurd (hipE.symm.trans hip) (by simp)
        · rcases hinner with ⟨stE, hip, h1, h2⟩ | ⟨st2, ev2, hip, h1, h2⟩
          · exact absurd (hipE.symm.trans hip) (by simp)
          · have hh := hipE.symm.trans hip
            injection hh with hh1
            injection hh1 with hh2 hh3
            refine ⟨?_, ev2, h2⟩
            rw [h1, ← hh2, htabE]
            simp [listGet_none_filter hnone]
        · rcases hinner with ⟨stE, hip, h1, h2⟩ | ⟨st2, ev2, hip, h1, h2⟩
          · exact absurd (hipE.symm.trans hip) (by simp)
          · have hh := hipE.symm.trans hip
            injection hh with hh1
            injection hh1 with hh2 hh3
            refine ⟨?_, ev2, h2⟩
            rw [h1, ← hh2, htabE, filter_key_listSet_of_none _ hnone]
            simp
    obtain ⟨hlen, ev2, hevs⟩ := htab
    refine ⟨hlen, fun mId hm => ?_⟩
    rw [hevs, hfirst mId hm]
    simp

/-- Witness for C1: a configuration-disabled refresh of channel `12345`
that starts with a tracked item `old-id`; the theorem applies and the
tracked item's removal is the head event. -/
theorem refreshChannel_retract_then_single_witness :
    (({ stOf cfgDisabled with
          injectedMessages := ([] : List (String × String)) } : PluginState).injectedMessages.filter
       (fun p => p.1 == "12345")).length ≤ 1 ∧
    [Event.removed "12345" "old-id"].head? = some (Event.removed "12345" "old-id") :=
  ⟨(refreshChannel_retract_then_single envBenign
      { stOf cfgDisabled with injectedMessages := [("12345", "old-id")] } "12345"
      { stOf cfgDisabled with injectedMessages := [] } [Event.removed "12345" "old-id"]
      (by decide) (by rfl)).1,
   (refreshChannel_retract_then_single envBenign
      { stOf cfgDisabled with injectedMessages := [("12345", "old-id")] } "12345"
      { stOf cfgDisabled with injectedMessages := [] } [Event.removed "12345" "old-id"]
      (by decide) (by rfl)).2 "old-id" (by rfl)⟩

/-! ## Claim C3 -/

theorem shouldRender_eq_true_iff (cfg : Config) (c : String) :
    shouldRenderInChannel cfg c = true ↔
      cfg.enabled = true ∧ isSnowflake cfg.discordId = true ∧
      strTruthy (jsTrim cfg.messageContent) = true ∧
      (cfg.channelMode = "specific" →
        isSnowflake cfg.targetChannelId = true ∧ c = cfg.targetChannelId) := by
  unfold shouldRenderInChannel
  cases he : cfg.enabled <;>
    cases hid : isSnowflake cfg.discordId <;>
      cases hct : strTruthy (jsTrim cfg.messageContent) <;>
        by_cases hm : cfg.channelMode = "specific" <;>
          cases hts : isSnowflake cfg.targetChannelId <;>
            simp [he, hid, hct, hm, hts, beq_iff_eq]

theorem claimDecisionGate_eq_true_iff (cfg : Config) (c : String) :
    claimDecisionGate cfg c = true ↔
      cfg.enabled = true ∧ isSnowflake cfg.discordId = true ∧
      strTruthy (jsTrim cfg.messageContent) = true ∧
      (cfg.channelMode = "specific" →
        matchesSnowflakePattern cfg.targetChannelId = true ∧ c = cfg.targetChannelId) := by
  unfold claimDecisionGate
  cases he : cfg.enabled <;>
    cases hid : isSnowflake cfg.discordId <;>
      cases hct : strTruthy (jsTrim cfg.messageContent) <;>
        by_cases hm : cfg.channelMode = "specific" <;>
          cases hts : matchesSnowflakePattern cfg.targetChannelId <;>
            simp [he, hid, hct, hm, hts, beq_iff_eq]

/-- When the channel id is itself a raw snowflake, the code's gate
implies the claim's gate (the equality check forces the target to be the
raw-snowflake channel id). -/
theorem claimGate_of_shouldRender {cfg : Config} {c : String}
    (hc : matchesSnowflakePattern c = true)
    (h : shouldRenderInChannel cfg c = true) :
    claimDecisionGate cfg c = true := by
  rw [shouldRender_eq_true_iff] at h
  rw [claimDecisionGate_eq_true_iff]
  obtain ⟨he, hid, hct, htgt⟩ := h
  refine ⟨he, hid, hct, fun hm => ?_⟩
  obtain ⟨-, heq⟩ := htgt hm
  exact ⟨heq ▸ hc, heq⟩

/-- C3: for every raw-snowflake channel identifier `c`, `refreshChannel c`
injects an item only when the claim's decision gate holds (enabled,
trimmed `discordId` a snowflake, trimmed content non-empty and, in
specific mode, `targetChannelId` itself matching the snowflake pattern
and equal to `c`); in particular with `enabled = false` no channel is
ever injected into. -/
theorem refreshChannel_gate_necessary (env : Env) (st : PluginState) (c : String)
    (st' : PluginState) (evs : List Event)
    (hc : matchesSnowflakePattern c = true)
    (h : refreshChannel env st c = .ok (st', evs)) :
    ((∃ mId, Event.injected c mId ∈ evs) → claimDecisionGate st.config c = true) ∧
    (st.config.enabled = false → ∀ mId, Event.injected c mId ∉ evs) := by
  rcases refreshChannel_ok_cases h with ⟨-, -, hevs⟩ | ⟨-, st1, ev1, hrm, hrest⟩
  · rw [hevs]
    exact ⟨fun hex => absurd hex.choose_spec (by simp), fun _ m => by simp⟩
  · have hcfg1 : st1.config = st.config := by
      rcases removeFakeMessage_ok_cases hrm with ⟨-, h1, -⟩ | ⟨mId, -, -, h1, -⟩ <;>
        rw [h1]
    have hev1 : ∀ m, Event.injected c m ∉ ev1 := by
      rcases removeFakeMessage_ok_cases hrm with ⟨-, -, h2⟩ | ⟨mId, -, -, -, h2⟩ <;>
        rw [h2] <;> simp
    rcases hrest with ⟨hg, h1, h2⟩ | ⟨hg, hinner⟩
    · rw [h2]
      exact ⟨fun hex => absurd hex.choose_spec (hev1 _), fun _ m => hev1 m⟩
    · have hgate := claimGate_of_shouldRender hc (hcfg1 ▸ hg)
      refine ⟨fun _ => hgate, fun hdis m => ?_⟩
      exfalso
      have he : st.config.enabled = true :=
        ((shouldRender_eq_true_iff _ _).mp (hcfg1 ▸ hg)).1
      rw [hdis] at he
      exact Bool.false_ne_true he

/-- Witness for C3 (Scenario A): with an enabled any-channel config, the
refresh of channel `999999999999999999` injects exactly one item, and
the theorem yields the gate. -/
theorem refreshChannel_gate_necessary_witness :
    claimDecisionGate cfgAny "999999999999999999" = true :=
  (refreshChannel_gate_necessary envBenign (stOf cfgAny) "999999999999999999"
      { stOf cfgAny with
          injectedMessages :=
            [("999999999999999999", "fake-message-composer:999999999999999999")] }
      [Event.injected "999999999999999999" "fake-message-composer:999999999999999999"]
      (by decide) (by rfl)).1
    ⟨"fake-message-composer:999999999999999999", by simp⟩

/-! ## Claim C5 -/

/-- Unfolding of `refreshChannel` past a successful retraction. -/
theorem refreshChannel_unfold_ok {env : Env} {st : PluginState} {c : String}
    {st1 : PluginState} {ev1 : List Event}
    (hc : strTruthy c = true)
    (hrm : removeFakeMessage env st c = .ok (st1, ev1)) :
    refreshChannel env st c =
      (if !shouldRenderInChannel st1.config c then .ok (st1, ev1)
       else
         match injectPhase env st1 c with
         | .error stE => .ok (stE, ev1)
         | .ok (st2, ev2) => .ok (st2, ev1 ++ ev2)) := by
  unfold refreshChannel
  rw [hc, hrm]
  rfl

/-- C5: with a benign removal collaborator, `refreshChannel` always
completes normally — every exception raised while building or injecting
the synthetic item (identity fetch included) is caught — and whenever no
injection for `c` was emitted (in particular whenever the build/inject
phase failed), channel `c` ends Absent: the table has no entry for it. -/
theorem refreshChannel_catches_build_failures (env : Env) (st : PluginState) (c : String)
    (hc : c ≠ "")
    (hdel : ∀ mId, env.deleteThrows c mId = false) :
    ∃ st' evs, refreshChannel env st c = .ok (st', evs) ∧
      ((∀ mId, Event.injected c mId ∉ evs) → listGet st'.injectedMessages c = none) := by
  have hcb : strTruthy c = true := by
    simp [strTruthy]
    exact hc
  obtain ⟨st1, ev1, hrm, hnone⟩ :
      ∃ st1 ev1, removeFakeMessage env st c = .ok (st1, ev1) ∧
        listGet st1.injectedMessages c = none := by
    cases hm : listGet st.injectedMessages c with
    | none => exact ⟨st, [], removeFakeMessage_miss hm, hm⟩
    | some mId =>
      exact ⟨_, _, removeFakeMessage_hit hm (hdel mId), listGet_listErase_self _ _⟩
  rw [refreshChannel_unfold_ok hcb hrm]
  by_cases hg : shouldRenderInChannel st1.config c = true
  · rw [hg]
    simp only [Bool.not_true, Bool.false_eq_true, if_false]
    rcases injectPhase_cases env st1 c with ⟨stE, hip, htab, -⟩ |
      ⟨st2, hip, htab, -⟩ | ⟨st2, mId, hip, htab, -⟩
    · rw [hip]
      exact ⟨stE, ev1, rfl, fun _ => htab ▸ hnone⟩
    · rw [hip]
      exact ⟨st2, ev1 ++ [], rfl, fun _ => htab ▸ hnone⟩
    · rw [hip]
      refine ⟨st2, ev1 ++ [Event.injected c mId], rfl, fun hno => ?_⟩
      exact absurd (by simp : Event.injected c mId ∈ ev1 ++ [Event.injected c mId])
        (hno mId)
  · simp only [Bool.not_eq_true] at hg
    rw [hg]
    simp only [Bool.not_false, if_true]
    exact ⟨st1, ev1, rfl, fun _ => hnone⟩

/-- Witness for C5: an environment whose injection collaborator throws;
the theorem applies at channel `24680` with an enabled configuration,
the refresh returns normally and no entry is recorded for the channel. -/
theorem refreshChannel_catches_build_failures_witness :
    listGet (stOf cfgAny).injectedMessages "24680" = none := by
  obtain ⟨st', evs, heq, himp⟩ :=
    refreshChannel_catches_build_failures { envBenign with receiveThrows := fun _ _ => true }
      (stOf cfgAny) "24680" (by decide) (fun _ => rfl)
  have heq2 : (Except.ok (st', evs) : Except Unit (PluginState × List Event)) =
      Except.ok (stOf cfgAny, ([] : List Event)) := by
    rw [← heq]
    rfl
  injection heq2 with h1
  injection h1 with h2 h3
  rw [← h2]
  refine himp ?_
  rw [h3]
  simp

/-! ## Claim C2 -/

/-- Counterexample to C2: with an item tracked for channel `77777` and
channel `99999` selected, a config-change reconciliation deletes the
`77777` table entry and calls the removal collaborator for it — the
other channel's item is not left untouched. -/
theorem reapply_removes_other_channels_cex :
    reapplyFakeMessages { envBenign with currentChannelId := some "99999" }
        { stOf cfgDisabled with
            injectedMessages := [("77777", "fake-message-composer:77777")] } =
      .ok (stOf cfgDisabled, [Event.removed "77777" "fake-message-composer:77777"]) ∧
    listGet (stOf cfgDisabled).injectedMessages "77777" = none ∧
    Event.removed "77777" "fake-message-composer:77777" ∈
      [Event.removed "77777" "fake-message-composer:77777"] :=
  ⟨rfl, rfl, by simp⟩

/-- A successful `clearInjectedMessages` empties the table and emits one
removal per entry, in order. -/
theorem clearInjectedMessages_ok {env : Env} {st st1 : PluginState} {ev1 : List Event}
    (h : clearInjectedMessages env st = .ok (st1, ev1)) :
    st1 = { st with injectedMessages := [] } ∧
    ev1 = st.injectedMessages.map (fun p => Event.removed p.1 p.2) := by
  unfold clearInjectedMessages at h
  split at h
  · exact absurd h (by simp)
  · next evs' heq =>
    have hev := dispatchDeletes_ok_events heq
    injection h with h1
    injection h1 with h2 h3
    exact ⟨h2.symm, by rw [← h3, hev]⟩

/-- A refresh starting from an empty table can only record entries for
the refreshed channel. -/
theorem refreshChannel_from_empty {env : Env} {st : PluginState} {c : String}
    {st' : PluginState} {evs : List Event}
    (hempty : st.injectedMessages = [])
    (h : refreshChannel env st c = .ok (st', evs)) :
    ∀ p ∈ st'.injectedMessages, p.1 = c := by
  rcases refreshChannel_ok_cases h with ⟨-, h1, -⟩ | ⟨-, st1, ev1, hrm, hrest⟩
  · rw [h1, hempty]
    simp
  · rcases removeFakeMessage_ok_cases hrm with ⟨-, hh1, -⟩ | ⟨mId, hhit, -, -, -⟩
    · have hempty1 : st1.injectedMessages = [] := by rw [hh1, hempty]
      rcases hrest with ⟨-, h1, -⟩ | ⟨-, ⟨stE, hip, h1, -⟩ | ⟨st2, ev2, hip, h1, -⟩⟩
      · rw [h1, hempty1]
        simp
      · rcases injectPhase_cases env st1 c with ⟨stE', hipE, htabE, -⟩ |
          ⟨st2', hipE, htabE, -⟩ | ⟨st2', mId', hipE, htabE, -⟩
        · have hh := hipE.symm.trans hip
          injection hh with hh1
          rw [h1, ← hh1, htabE, hempty1]
          simp
        · exact absurd (hipE.symm.trans hip) (by simp)
        · exact absurd (hipE.symm.trans hip) (by simp)
      · rcases injectPhase_cases env st1 c with ⟨stE', hipE, htabE, -⟩ |
          ⟨st2', hipE, htabE, -⟩ | ⟨st2', mId', hipE, htabE, -⟩
        · exact absurd (hipE.symm.trans hip) (by simp)
        · have hh := hipE.symm.trans hip
          injection hh with hh1
          injection hh1 with hh2 hh3
          rw [h1, ← hh2, htabE, hempty1]
          simp
        · have hh := hipE.symm.trans hip
          injection hh with hh1
          injection hh1 with hh2 hh3
          rw [h1, ← hh2, htabE, hempty1]
          intro p hp
          simp [listSet] at hp
          rw [hp]
    · rw [hempty] at hhit
      simp [listGet] at hhit

/-- A forced `refreshForCurrentChannel` from an empty table only records
entries for the currently selected channel. -/
theorem refreshForCurrent_from_empty {env : Env} {st1 st2 : PluginState} {ev2 : List Event}
    (hempty : st1.injectedMessages = [])
    (h : refreshForCurrentChannel env st1 true = .ok (st2, ev2)) :
    ∀ p ∈ st2.injectedMessages, env.currentChannelId = some p.1 := by
  unfold refreshForCurrentChannel at h
  split at h
  · next hcond => simp at hcond
  · split at h
    · next hcur =>
      injection h with h1
      injection h1 with h2 h3
      rw [← h2, hempty]
      simp
    · next cur hcur =>
      split at h
      · intro p hp
        have hkey := refreshChannel_from_empty hempty h p hp
        rw [hcur, hkey]
      · injection h with h1
        injection h1 with h2 h3
        rw [← h2, hempty]
        simp

/-- C2 amended: a config-change reconciliation (`reapplyFakeMessages`)
first retracts every previously active synthetic item — the removal
collaborator is called once per table entry and the table is emptied —
and then re-evaluates only the currently selected channel, so afterwards
the table can only hold an entry for the selected channel. -/
theorem reapply_retracts_all_then_refreshes_current (env : Env) (st : PluginState)
    (st' : PluginState) (evs : List Event)
    (hst : st.started = true)
    (h : reapplyFakeMessages env st = .ok (st', evs)) :
    (∀ p ∈ st.injectedMessages, Event.removed p.1 p.2 ∈ evs) ∧
    (∀ p ∈ st'.injectedMessages, env.currentChannelId = some p.1) := by
  unfold reapplyFakeMessages at h
  rw [hst] at h
  simp only [Bool.not_true, Bool.false_eq_true, if_false] at h
  split at h
  · exact absurd h (by simp)
  · next st1 ev1 hclear =>
    obtain ⟨hst1, hev1⟩ := clearInjectedMessages_ok hclear
    split at h
    · exact absurd h (by simp)
    · next st2 ev2 href =>
      injection h with h1
      injection h1 with h2 h3
      have hempty1 : st1.injectedMessages = [] := by rw [hst1]
      constructor
      · intro p hp
        rw [← h3, hev1]
        exact List.mem_append_left _ (List.mem_map_of_mem _ hp)
      · intro p hp
        rw [← h2] at hp
        exact refreshForCurrent_from_empty hempty1 href p hp

/-- Witness for C2 amended: two tracked channels, selected channel
`99999`, enabled config; the theorem yields the retraction of `77777`
and that the selected channel claims the remaining entry. -/
theorem reapply_retracts_all_then_refreshes_current_witness :
    Event.removed "77777" "a" ∈
      [Event.removed "77777" "a", Event.removed "88888" "b",
       Event.injected "99999" "fake-message-composer:99999"] ∧
    ({ envBenign with currentChannelId := some "99999" } : Env).currentChannelId =
      some "99999" :=
  ⟨(reapply_retracts_all_then_refreshes_current
      { envBenign with currentChannelId := some "99999" }
      { stOf cfgAny with injectedMessages := [("77777", "a"), ("88888", "b")] }
      { stOf cfgAny with injectedMessages := [("99999", "fake-message-composer:99999")] }
      [Event.removed "77777" "a", Event.removed "88888" "b",
       Event.injected "99999" "fake-message-composer:99999"]
      rfl (by rfl)).1 ("77777", "a") (by simp),
   (reapply_retracts_all_then_refreshes_current
      { envBenign with currentChannelId := some "99999" }
      { stOf cfgAny with injectedMessages := [("77777", "a"), ("88888", "b")] }
      { stOf cfgAny with injectedMessages := [("99999", "fake-message-composer:99999")] }
      [Event.removed "77777" "a", Event.removed "88888" "b",
       Event.injected "99999" "fake-message-composer:99999"]
      rfl (by rfl)).2 ("99999", "fake-message-composer:99999") (by simp)⟩

/-! ## Claim C4 -/

/-- Counterexample to C4: with the spec's Scenario B configuration
(`targetChannelId = "111"`, three digits), switching to channel `111`
creates no item either — `isSnowflake` requires at least five digits, so
the gate fails and the channel stays Absent, contrary to the claimed
"refreshChannel(\"111\") creates an active item for channel \"111\"". -/
theorem scenarioB_target111_cex :
    shouldRenderInChannel cfg111 "111" = false ∧
    refreshChannel envBenign (stOf cfg111) "111" = .ok (stOf cfg111, []) ∧
    listGet (stOf cfg111).injectedMessages "111" = none :=
  ⟨rfl, rfl, rfl⟩

/-- C4 amended: the same scenario with a five-digit target `11111`:
switching to `22222` creates no item (stays Absent), and switching to
`11111` creates exactly one active item for that channel. -/
theorem scenarioB_amended :
    refreshChannel envBenign (stOf cfgSpec5) "22222" = .ok (stOf cfgSpec5, []) ∧
    refreshChannel envBenign (stOf cfgSpec5) "11111" =
      .ok ({ stOf cfgSpec5 with
               injectedMessages := [("11111", "fake-message-composer:11111")] },
           [Event.injected "11111" "fake-message-composer:11111"]) ∧
    listGet [("11111", "fake-message-composer:11111")] "11111" =
      some "fake-message-composer:11111" :=
  ⟨rfl, rfl, rfl⟩

/-! ## Claim C6 -/

/-- Counterexample to C6: a miss in the synchronous store with no async
fetch available returns the `{id}` placeholder, but the placeholder is
NOT stored in the identity cache — the cache comes back unchanged
(empty), so a later fetch of the same trimmed id is not a cache hit. -/
theorem fetchUser_placeholder_not_cached_cex :
    fetchUser envBenign [] "12345" = .ok (some { id := "12345" }, []) ∧
    listGet ([] : List (String × User)) "12345" = none :=
  ⟨rfl, rfl⟩

/-- C6 amended: `fetchUser` trims its input and returns `null` only for
an empty trimmed id (cache untouched); otherwise — when the synchronous
store lookup does not throw — it returns a non-null result, and either
that result is now in the cache (a hit or a resolved identity, so a
later fetch of the same trimmed id is a cache hit) or it is the
`{id: trimmedId}` placeholder and the cache is unchanged (placeholders
are never cached). -/
theorem fetchUser_amended (env : Env) (cache : List (String × User)) (rawId : String)
    (hget : env.getUser (jsTrim rawId) ≠ .throws) :
    ∃ r cache', fetchUser env cache rawId = .ok (r, cache') ∧
      (jsTrim rawId = "" → r = none ∧ cache' = cache) ∧
      (jsTrim rawId ≠ "" → ∃ u, r = some u ∧
        (listGet cache' (jsTrim rawId) = some u ∨
         (u = { id := jsTrim rawId } ∧ cache' = cache))) := by
  unfold fetchUser
  dsimp only
  by_cases ht : strTruthy (jsTrim rawId) = true
  · have hne : jsTrim rawId ≠ "" := by
      simp [strTruthy] at ht
      exact ht
    rw [ht]
    simp only [Bool.not_true, Bool.false_eq_true, if_false]
    cases hcache : listGet cache (jsTrim rawId) with
    | some u =>
      exact ⟨some u, cache, rfl, fun he => absurd he hne,
        fun _ => ⟨u, rfl, Or.inl hcache⟩⟩
    | none =>
      cases hg : env.getUser (jsTrim rawId) with
      | throws => exact absurd hg hget
      | found u =>
        exact ⟨some u, listSet cache (jsTrim rawId) u, rfl, fun he => absurd he hne,
          fun _ => ⟨u, rfl, Or.inl (listGet_listSet_self _ _ _)⟩⟩
      | missing =>
        cases henv : env.hasFetchUser with
        | false =>
          exact ⟨some { id := jsTrim rawId }, cache, rfl, fun he => absurd he hne,
            fun _ => ⟨{ id := jsTrim rawId }, rfl, Or.inr ⟨rfl, rfl⟩⟩⟩
        | true =>
          cases hfa : env.fetchUserAsync (jsTrim rawId) with
          | error e =>
            exact ⟨some { id := jsTrim rawId }, cache, rfl, fun he => absurd he hne,
              fun _ => ⟨{ id := jsTrim rawId }, rfl, Or.inr ⟨rfl, rfl⟩⟩⟩
          | ok uo =>
            cases uo with
            | none =>
              exact ⟨some { id := jsTrim rawId }, cache, rfl, fun he => absurd he hne,
                fun _ => ⟨{ id := jsTrim rawId }, rfl, Or.inr ⟨rfl, rfl⟩⟩⟩
            | some u =>
              exact ⟨some u, listSet cache (jsTrim rawId) u, rfl, fun he => absurd he hne,
                fun _ => ⟨u, rfl, Or.inl (listGet_listSet_self _ _ _)⟩⟩
  · simp only [Bool.not_eq_true] at ht
    have he : jsTrim rawId = "" := by
      simp [strTruthy] at ht
      exact ht
    rw [ht]
    simp only [Bool.not_false, if_true]
    exact ⟨none, cache, rfl, fun _ => ⟨rfl, rfl⟩, fun hne => absurd he hne⟩

/-- Witness for C6 amended: the benign environment at raw id
`" 12345 "` (trimming to `12345`) with an empty cache. -/
theorem fetchUser_amended_witness :
    envBenign.getUser (jsTrim " 12345 ") ≠ .throws ∧
    (∃ r cache', fetchUser envBenign [] " 12345 " = .ok (r, cache') ∧
      (jsTrim " 12345 " = "" → r = none ∧ cache' = []) ∧
      (jsTrim " 12345 " ≠ "" → ∃ u, r = some u ∧
        (listGet cache' (jsTrim " 12345 ") = some u ∨
         (u = { id := jsTrim " 12345 " } ∧ cache' = [])))) :=
  ⟨by decide, fetchUser_amended envBenign [] " 12345 " (by decide)⟩

/-! ## Claim C7 -/

/-- Counterexample to C7: when the removal collaborator throws during
teardown, `stop` propagates the exception — the claim's "never throws"
fails — and the table is not drained (`clearInjectedMessages` aborts
before its final `clear`). -/
theorem stop_throws_cex :
    stop { envBenign with deleteThrows := fun _ _ => true }
        { stOf cfgAny with injectedMessages := [("55555", "m1")] } = .error () :=
  rfl

/-- C7 amended: provided the removal collaborator does not throw for the
tracked entries, `stop` succeeds; afterwards the Active-Injection Table
is empty, the removal collaborator was invoked exactly once per tracked
entry (in table order), the pending persistence timer is cancelled, and
`stop` is idempotent: calling it again — equivalently, from a state
where `start` never completed — succeeds with no further removals. -/
theorem stop_amended (env : Env) (st : PluginState)
    (hdel : ∀ p ∈ st.injectedMessages, env.deleteThrows p.1 p.2 = false) :
    ∃ st', stop env st =
        .ok (st', st.injectedMessages.map (fun p => Event.removed p.1 p.2)) ∧
      st'.injectedMessages = [] ∧ st'.persistTimer = none ∧
      st'.started = false ∧ st'.channelSubscribed = false ∧
      stop env st' = .ok (st', []) := by
  refine ⟨{ st with started := false, channelSubscribed := false, timestampBadgePatched := false, injectedMessages := [], persistTimer := none }, ?_, rfl, rfl, rfl, rfl, ?_⟩
  · unfold stop unsubscribeFromChannelChanges unpatchAll clearInjectedMessages
      clearPersistTimer
    dsimp only
    rw [dispatchDeletes_benign hdel]
  · unfold stop unsubscribeFromChannelChanges unpatchAll clearInjectedMessages
      clearPersistTimer
    dsimp only
    rw [dispatchDeletes_benign (by simp : ∀ p ∈ ([] : List (String × String)),
      env.deleteThrows p.1 p.2 = false)]
    rfl

/-- Witness for C7 amended: two channels hold active items and a persist
timer is pending; the theorem applies (benign collaborators) and drains
both. -/
theorem stop_amended_witness :
    ∃ st', stop envBenign
        { stOf cfgAny with
            injectedMessages := [("11111", "m1"), ("22222", "m2")],
            persistTimer := some 500 } =
        .ok (st', ([("11111", "m1"), ("22222", "m2")] :
            List (String × String)).map (fun p => Event.removed p.1 p.2)) ∧
      st'.injectedMessages = [] ∧ st'.persistTimer = none ∧
      st'.started = false ∧ st'.channelSubscribed = false ∧
      stop envBenign st' = .ok (st', []) :=
  stop_amended envBenign
    { stOf cfgAny with
        injectedMessages := [("11111", "m1"), ("22222", "m2")],
        persistTimer := some 500 }
    (fun _ _ => rfl)

/-! ## Claim C8 -/

/-- A call arriving strictly before the pending deadline fires nothing:
the timer is simply cancelled and replaced. -/
theorem fireIfDue_not_due {ps : PersistState} {t : Nat}
    (hno : ∀ d, ps.persistTimer = some d → t < d) :
    fireIfDue t ps = (ps, []) := by
  unfold fireIfDue
  cases hpt : ps.persistTimer with
  | none => rfl
  | some d =>
    have hnle := Nat.not_le.mpr (hno d hpt)
    simp [hnle]

theorem runUpdates_cons_no_fire {ps : PersistState} {t : Nat} {p : ConfigPatch}
    {rest : List (Nat × ConfigPatch)}
    (hno : ∀ d, ps.persistTimer = some d → t < d) :
    runUpdates ps ((t, p) :: rest) = runUpdates (updateConfigP t ps p) rest := by
  show (let fired := fireIfDue t ps
        let next := runUpdates (updateConfigP t fired.1 p) rest
        (next.1, fired.2 ++ next.2)) = runUpdates (updateConfigP t ps p) rest
  rw [fireIfDue_not_due hno]
  simp

/-- Inside a debounce burst no timer ever fires: the single timer is
re-armed by every call, the config folds up the patches, and the final
deadline tracks the last call. -/
theorem runUpdates_burst :
    ∀ (us : List (Nat × ConfigPatch)) (ps : PersistState),
      withinDebounce us = true →
      (∀ d, ps.persistTimer = some d → ∀ q ∈ us.head?, q.1 < d) →
      (runUpdates ps us).2 = [] ∧
      (runUpdates ps us).1.config =
        us.foldl (fun c q => mergeWithDefaults (applyPatch c q.2)) ps.config ∧
      (runUpdates ps us).1.persistTimer =
        (match us.getLast? with
         | some q => some (q.1 + PERSIST_DEBOUNCE_MS)
         | none => ps.persistTimer)
  | [], ps, _, _ => by simp [runUpdates]
  | (t, p) :: rest, ps, hwd, hguard => by
    have hno : ∀ d, ps.persistTimer = some d → t < d :=
      fun d hd => hguard d hd (t, p) (by simp)
    rw [runUpdates_cons_no_fire hno]
    cases rest with
    | nil =>
      refine ⟨by simp [runUpdates], by simp [runUpdates, updateConfigP, enqueuePersist], ?_⟩
      simp [runUpdates, updateConfigP, enqueuePersist]
    | cons q r =>
      obtain ⟨t2, p2⟩ := q
      have hdec : (t ≤ t2 ∧ t2 < t + PERSIST_DEBOUNCE_MS) ∧
          withinDebounce ((t2, p2) :: r) = true := by
        have hw := hwd
        simp only [withinDebounce, Bool.and_eq_true, decide_eq_true_eq] at hw
        exact ⟨⟨hw.1.1, hw.1.2⟩, hw.2⟩
      have ih := runUpdates_burst ((t2, p2) :: r) (updateConfigP t ps p) hdec.2
        (by
          intro d hd q hq
          have hd2 : t + PERSIST_DEBOUNCE_MS = d := by
            simpa [updateConfigP, enqueuePersist] using hd
          have hq2 : q = (t2, p2) := by simpa using hq.symm
          rw [hq2, ← hd2]
          exact hdec.1.2)
      refine ⟨ih.1, ?_, ?_⟩
      · rw [ih.2.1]
        rfl
      · rw [ih.2.2, List.getLast?_cons_cons]
        cases hgl : ((t2, p2) :: r).getLast? with
        | none => exact absurd (List.getLast?_eq_none_iff.mp hgl) (by simp)
        | some q => rfl

/-- C8: persistence is debounced, latest-write-wins: every scheduling
call cancels and replaces the single pending timer, so a burst of
`updateConfig` calls whose gaps are all below the 250ms window produces
no write during the burst and exactly one write at quiescence, carrying
the configuration state of the last call. -/
theorem debounce_single_write (ps : PersistState) (us : List (Nat × ConfigPatch))
    (h0 : ps.persistTimer = none) (hne : us ≠ [])
    (hwd : withinDebounce us = true) :
    (runUpdates ps us).2 = [] ∧
    flushPersist (runUpdates ps us).1 =
      [Event.persisted
        (us.foldl (fun c q => mergeWithDefaults (applyPatch c q.2)) ps.config)] := by
  have hguard : ∀ d, ps.persistTimer = some d → ∀ q ∈ us.head?, q.1 < d := by
    intro d hd
    rw [h0] at hd
    exact absurd hd (by simp)
  obtain ⟨hev, hcfg, htimer⟩ := runUpdates_burst us ps hwd hguard
  refine ⟨hev, ?_⟩
  cases hlast : us.getLast? with
  | none => exact absurd (List.getLast?_eq_none_iff.mp hlast) hne
  | some q =>
    rw [hlast] at htimer
    unfold flushPersist
    rw [htimer, hcfg]

/-- Witness for C8: two updates 100ms apart (inside the 250ms window)
from a fresh store produce no write during the burst and exactly one
flushed write with the folded configuration. -/
theorem debounce_single_write_witness :
    (runUpdates { config := getDefaultConfig, persistTimer := none }
        [(0, ({ enabled := some false } : ConfigPatch)),
         (100, ({ messageContent := some "hi" } : ConfigPatch))]).2 = [] ∧
    flushPersist (runUpdates { config := getDefaultConfig, persistTimer := none }
        [(0, ({ enabled := some false } : ConfigPatch)),
         (100, ({ messageContent := some "hi" } : ConfigPatch))]).1 =
      [Event.persisted
        (([(0, ({ enabled := some false } : ConfigPatch)),
           (100, ({ messageContent := some "hi" } : ConfigPatch))]).foldl
          (fun c q => mergeWithDefaults (applyPatch c q.2))
          ({ config := getDefaultConfig, persistTimer := none } : PersistState).config)] :=
  debounce_single_write { config := getDefaultConfig, persistTimer := none }
    [(0, ({ enabled := some false } : ConfigPatch)),
     (100, ({ messageContent := some "hi" } : ConfigPatch))]
    rfl (by simp) (by rfl)

/-! ## Claim C9 -/

theorem listGet_cons_self {α : Type} (m : List (String × α)) (k : String) (v : α) :
    listGet ((k, v) :: m) k = some v := by
  simp [listGet, List.find?]

theorem listGet_cons_ne {α : Type} (m : List (String × α)) (k0 k : String) (v0 : α)
    (h : ¬ k0 = k) : listGet ((k0, v0) :: m) k = listGet m k := by
  have hb : (k0 == k) = false := by simp [h]
  simp [listGet, List.find?, hb]

theorem listGet_eq_none_of_not_mem_keys {α : Type} {m : List (String × α)} {k : String}
    (h : k ∉ m.map Prod.fst) : listGet m k = none := by
  rw [listGet_eq_none_iff]
  intro p hp
  simp only [beq_eq_false_iff_ne]
  intro hk
  exact h (hk ▸ List.mem_map_of_mem Prod.fst hp)

theorem listGet_listSet_other {α : Type} (m : List (String × α)) (k k' : String) (v : α)
    (hne : ¬ k = k') : listGet (listSet m k v) k' = listGet m k' := by
  by_cases hany : (m.any (fun p => p.1 == k)) = true
  · have hfun : (fun p : String × α => p.1 == k') ∘ (fun p => if p.1 == k then (k, v) else p)
        = fun p : String × α => p.1 == k' := by
      funext p0
      by_cases hp : (p0.1 == k) = true
      · have hpe : p0.1 = k := by simpa using hp
        simp [Function.comp, hp, hpe, beq_eq_false_iff_ne, hne]
      · simp only [Bool.not_eq_true] at hp
        simp [Function.comp, hp]
    unfold listGet listSet
    rw [if_pos hany, List.find?_map, hfun]
    cases hf : List.find? (fun p : String × α => p.1 == k') m with
    | none => rfl
    | some a =>
      have hq := List.find?_some hf
      have hq2 : a.1 = k' := by simpa using hq
      have ha : ¬ a.1 = k := fun hh => hne (hh ▸ hq2)
      simp [ha]
  · simp only [Bool.not_eq_true] at hany
    have hb : (k == k') = false := by simp [hne]
    unfold listGet listSet
    rw [if_neg (by simp [hany]), List.find?_append]
    cases hf : List.find? (fun p : String × α => p.1 == k') m with
    | none =>
      simp [Option.or, List.find?, hb]
    | some a => simp [Option.or]

/-- Spread-merging fields with pairwise-distinct keys: the override's
binding wins where present, the base's otherwise. -/
theorem lookupField_mergeFields (base : List (String × JVal)) :
    ∀ over : List (String × JVal), (over.map Prod.fst).Nodup →
      ∀ k, lookupField (mergeFields base over) k =
        ((lookupField over k).or (lookupField base k))
  | [], _, k => by simp [mergeFields, lookupField, listGet]
  | (k0, v0) :: rest, hnd, k => by
    have hk0 : k0 ∉ rest.map Prod.fst := by
      simp only [List.nodup_cons, List.map_cons] at hnd
      exact hnd.1
    have hrest : (rest.map Prod.fst).Nodup := by
      simp only [List.nodup_cons, List.map_cons] at hnd
      exact hnd.2
    have hstep : mergeFields base ((k0, v0) :: rest) = mergeFields (setField base k0 v0) rest := rfl
    rw [hstep, lookupField_mergeFields (setField base k0 v0) rest hrest k]
    by_cases hkk : k0 = k
    · rw [← hkk]
      unfold lookupField
      rw [listGet_eq_none_of_not_mem_keys hk0, listGet_cons_self]
      unfold setField
      rw [listGet_listSet_self]
      rfl
    · unfold lookupField setField
      rw [listGet_listSet_other _ _ _ _ hkk, listGet_cons_ne _ _ _ _ hkk]

/-- Counterexample to C9: a stored configuration carrying the unknown
field `foo` is loaded with `foo` preserved in the resulting current
configuration — the object spread in `mergeWithDefaults` keeps unknown
extra fields rather than ignoring them. -/
theorem loadConfig_keeps_unknown_field_cex :
    lookupField (loadConfig (.val (.jobj [("foo", JVal.jnum 1)]))) "foo" =
      some (JVal.jnum 1) ∧
    "foo" ∉ defaultFields.map Prod.fst :=
  ⟨rfl, by decide⟩

/-- C9 amended: on load, a stored object's fields are merged over the
defaults — every Configuration field is taken from the stored object if
present and defaulted otherwise, `embeds` is independently normalized,
and unknown extra fields are retained (not ignored); an absent, throwing
or unparsable stored value yields the defaults without raising. -/
theorem loadConfig_amended (fields : List (String × JVal))
    (hnd : (fields.map Prod.fst).Nodup) :
    loadConfig (.val (.jobj fields)) = mergeWithDefaultsJ (.jobj fields) ∧
    (∀ k, ¬ k = "embeds" →
       lookupField (mergeWithDefaultsJ (.jobj fields)) k =
         ((lookupField fields k).or (lookupField defaultFields k))) ∧
    lookupField (mergeWithDefaultsJ (.jobj fields)) "embeds" =
      some (embedsToJVal (normalizeEmbedsJ
        (match lookupField fields "embeds" with
         | none => JVal.jarr []
         | some .jnull => JVal.jarr []
         | some v => v))) ∧
    loadConfig .absent = defaultFields ∧
    loadConfig .getThrows = defaultFields ∧
    (∀ s, loadConfig (.str s none) = defaultFields) := by
  refine ⟨rfl, ?_, ?_, rfl, rfl, fun s => rfl⟩
  · intro k hk
    show lookupField (setField (mergeFields defaultFields fields) "embeds" _) k = _
    unfold setField lookupField
    rw [listGet_listSet_other _ _ _ _ (fun hh => hk hh.symm)]
    exact lookupField_mergeFields defaultFields fields hnd k
  · show lookupField (setField (mergeFields defaultFields fields) "embeds" _) "embeds" = _
    unfold setField lookupField
    rw [listGet_listSet_self]
    rfl

/-- Witness for C9 amended: a stored object with `enabled` present, the
unknown field `foo`, and everything else missing. -/
theorem loadConfig_amended_witness :
    lookupField (mergeWithDefaultsJ
        (.jobj [("enabled", JVal.jbool false), ("foo", JVal.jnum 2)])) "enabled" =
      ((lookupField [("enabled", JVal.jbool false), ("foo", JVal.jnum 2)] "enabled").or
        (lookupField defaultFields "enabled")) ∧
    loadConfig .absent = defaultFields :=
  ⟨(loadConfig_amended [("enabled", JVal.jbool false), ("foo", JVal.jnum 2)]
      (by decide)).2.1 "enabled" (by decide),
   (loadConfig_amended [("enabled", JVal.jbool false), ("foo", JVal.jnum 2)]
      (by decide)).2.2.2.1⟩

/-! ## Claim C10 -/

/-- Counterexample to C10: an entry whose URL is not an http(s) URL is
kept (no http(s) filtering happens), and its label defaults to
`Link 1` — its position among the label-or-url non-empty survivors — not
`Link 2`, its 1-based position among the configured entries. -/
theorem buildEmbeds_non_http_cex :
    buildEmbeds [{ label := "", url := "" }, { label := "", url := "ftp://x" }] =
      [{ type := "link", title := "Link 1", url := "ftp://x", description := "ftp://x",
         color := 0x5865f2, footerText := "LOCAL PREVIEW ONLY" }] ∧
    isHttpUrl "ftp://x" = false :=
  ⟨rfl, by decide⟩

/-- C10 amended: the built embeds are exactly the entries with non-empty
trimmed URL — http(s) or not — among the entries whose label or url is
non-empty after trimming; each becomes a link embed whose url and
description are the trimmed url and whose title is the trimmed label,
defaulting to `Link N` where `N` is the entry's 1-based position in that
first-stage filtered sequence. -/
theorem buildEmbeds_amended (embeds : List Embed) (b : BuiltEmbed) :
    b ∈ buildEmbeds embeds ↔
      ∃ i e, (embeds.filter
          (fun e0 => strTruthy (jsTrim e0.label) || strTruthy (jsTrim e0.url)))[i]? =
            some e ∧
        strTruthy (jsTrim e.url) = true ∧
        b = { type := "link"
              title := if strTruthy (jsTrim e.label) = true then jsTrim e.label
                       else "Link " ++ toString (i + 1)
              url := jsTrim e.url
              description := jsTrim e.url
              color := 0x5865f2
              footerText := "LOCAL PREVIEW ONLY" } := by
  unfold buildEmbeds
  rw [List.filterMap_map]
  constructor
  · intro hb
    rw [List.mem_filterMap] at hb
    obtain ⟨⟨i, e⟩, hmem, hfe⟩ := hb
    rw [List.mk_mem_enum_iff_getElem?] at hmem
    refine ⟨i, e, hmem, ?_, ?_⟩
    · by_cases hu : strTruthy (jsTrim e.url) = true
      · exact hu
      · simp only [Bool.not_eq_true] at hu
        simp [hu] at hfe
    · by_cases hu : strTruthy (jsTrim e.url) = true
      · simp only [Function.comp, id, hu] at hfe
        simp only [Bool.not_true, Bool.false_eq_true, if_false] at hfe
        injection hfe with hfe1
        exact hfe1.symm
      · simp only [Bool.not_eq_true] at hu
        simp [hu] at hfe
  · rintro ⟨i, e, hget, hu, hb⟩
    rw [List.mem_filterMap]
    refine ⟨(i, e), List.mk_mem_enum_iff_getElem?.mpr hget, ?_⟩
    simp only [Function.comp, id, hu]
    simp only [Bool.not_true, Bool.false_eq_true, if_false]
    rw [hb]

/-- Witness for C10 amended: the characterization instantiated on the
counterexample input confirms membership of the `Link 1` embed. -/
theorem buildEmbeds_amended_witness :
    ({ type := "link", title := "Link 1", url := "ftp://x", description := "ftp://x",
       color := 0x5865f2, footerText := "LOCAL PREVIEW ONLY" } : BuiltEmbed) ∈
      buildEmbeds [{ label := "", url := "" }, { label := "", url := "ftp://x" }] :=
  (buildEmbeds_amended [{ label := "", url := "" }, { label := "", url := "ftp://x" }]
      { type := "link", title := "Link 1", url := "ftp://x", description := "ftp://x",
        color := 0x5865f2, footerText := "LOCAL PREVIEW ONLY" }).mpr
    ⟨0, { label := "", url := "ftp://x" }, by rfl, by rfl, by rfl⟩

end FakeMessageComposer
